import Mathlib

/-!
Verification of the selective archival engine of `compile.py`
(`load_gitignore_patterns`, `is_border_file`, `zip_folder_respecting_gitignore`).

The embedding models:
* Python string/`pathlib` helpers the script relies on (`str.strip`,
  `PurePath.suffix`, `PurePath.with_suffix`, `PurePosixPath` joining);
* the external `pathspec` collaborator's gitignore-style ("gitwildmatch")
  matching, treated as a black box with the documented gitignore semantics;
* the two audio collaborators `compress_ogg_file` and `wav_to_ogg` as
  uninterpreted byte-transformers injected as parameters;
* the filesystem as an explicit value: the list of `.gitignore` files found by
  `root.rglob(".gitignore")` and the list of regular files found by
  `folder.rglob("*")`, each with its root-relative path split into segments.
-/

namespace Kristal

/-! ### Python string helpers -/

/-- Whitespace characters stripped by Python `str.strip()`. -/
def isPyWs (c : Char) : Bool :=
  c == ' ' || c == '\t' || c == '\n' || c == '\r' || c == '\x0b' || c == '\x0c'

/-- Python `str.strip()`: remove leading and trailing whitespace. -/
def pyStrip (s : String) : String :=
  String.mk (((s.toList.dropWhile isPyWs).reverse.dropWhile isPyWs).reverse)

/-- Whether the string starts with the given character. -/
def startsWithChar (c : Char) (s : String) : Bool :=
  match s.toList with
  | [] => false
  | x :: _ => x == c

/-- Split a character list on a separator character (keeps empty pieces),
like Python `str.split(sep)`. -/
def splitOnChar (c : Char) : List Char → List (List Char)
  | [] => [[]]
  | x :: xs =>
    let r := splitOnChar c xs
    if x == c then [] :: r
    else
      match r with
      | [] => [[x]]
      | y :: ys => (x :: y) :: ys

/-- Join path components with `/` separators. -/
def joinWithSlash : List String → String
  | [] => ""
  | [p] => p
  | p :: ps => p ++ "/" ++ joinWithSlash ps

/-- Index of the last `.` in a character list (Python `str.rfind(".")`,
with `none` standing for Python's `-1`). -/
def rfind_dot (cs : List Char) : Option Nat :=
  ((List.range cs.length).filter (fun i => cs.getD i ' ' == '.')).getLast?

/-- Python `pathlib.PurePath.suffix` of a file NAME: the part from the last
dot on, unless the dot is the first character or the last character. -/
def pySuffix (name : String) : String :=
  let cs := name.toList
  match rfind_dot cs with
  | none => ""
  | some i => if 0 < i ∧ i < cs.length - 1 then String.mk (cs.drop i) else ""

/-- Python `pathlib.PurePath.with_suffix` applied to a file NAME: replace the
old suffix (or append when there is none). -/
def pyWithSuffixName (name : String) (sfx : String) : String :=
  let old := pySuffix name
  if old == "" then name ++ sfx
  else String.mk (name.toList.take (name.toList.length - old.toList.length)) ++ sfx

/-- `Path.suffix` of a path given as its list of segments (the suffix of the
final segment, i.e. of `Path.name`). -/
def pySuffixParts (parts : List String) : String :=
  pySuffix (parts.getLast?.getD "")

/-- `Path.with_suffix` of a path given as its list of segments. -/
def pyWithSuffixParts (parts : List String) (sfx : String) : List String :=
  parts.dropLast ++ [pyWithSuffixName (parts.getLast?.getD "") sfx]

/-! ### Python `PurePosixPath` parsing and joining

`load_gitignore_patterns` computes `str(rel_dir / line)`.  `PurePosixPath`
drops empty and `.` components, and joining with an ABSOLUTE right operand
discards the left operand entirely. -/

/-- Parse a POSIX path string into (is-absolute, components), the way
`PurePosixPath` does: empty and `.` components are dropped, `..` is kept. -/
def posixParse (s : String) : Bool × List String :=
  (startsWithChar '/' s,
   ((splitOnChar '/' s.toList).map String.mk).filter (fun p => p != "" && p != "."))

/-- Render a parsed POSIX path back to a string, the way `str(PurePosixPath)`
does (an empty relative path prints as `.`). -/
def posixStr (absFlag : Bool) (parts : List String) : String :=
  if absFlag then "/" ++ joinWithSlash parts
  else if parts = [] then "." else joinWithSlash parts

/-! ### The external `pathspec` matcher (gitwildmatch semantics)

The script delegates matching to `pathspec.PathSpec.from_lines("gitwildmatch",
patterns).match_file(path)`.  The spec treats this collaborator as implementing
gitignore-style matching; the model below implements those semantics for a
path given as its list of segments: a pattern whose body contains `/` is
anchored at the root, otherwise it matches at any depth; a pattern matching a
leading directory prefix of the path matches the whole subtree; `*` and `?`
match within one segment; a `**` segment matches any number of segments; a
trailing `/` restricts the pattern to directories (so for a file path, only a
proper prefix may match); a leading `!` negates, with the last matching
pattern winning. -/

/-- The literal `**` segment. -/
def starSeg : String := "**"

/-- fnmatch-style matching of one pattern segment against one path segment:
`*` matches any run of characters, `?` matches one character. -/
def globChars : List Char → List Char → Bool
  | [], xs => xs.isEmpty
  | p :: ps, xs =>
    if p == '*' then (xs.tails).any (fun t => globChars ps t)
    else
      match xs with
      | [] => false
      | x :: xs2 => (p == '?' || p == x) && globChars ps xs2

/-- Segment-level glob match. -/
def globSeg (p x : String) : Bool := globChars p.toList x.toList

/-- Match a list of pattern segments against exactly a list of path segments,
where a `**` pattern segment may consume any number of path segments. -/
def segsExact : List String → List String → Bool
  | [], xs => xs.isEmpty
  | p :: ps, xs =>
    if p == starSeg then (xs.tails).any (fun t => segsExact ps t)
    else
      match xs with
      | [] => false
      | x :: xs2 => globSeg p x && segsExact ps xs2

/-- Gitwildmatch of a single (non-negated) pattern against a file path given
as segments. -/
def pattern_matches (pattern : String) (path : List String) : Bool :=
  let cs := pattern.toList
  let dirOnly := cs.getLast? == some '/'
  let body := if cs.head? == some '/' then cs.drop 1 else cs
  let core := (body.reverse.dropWhile (fun c => c == '/')).reverse
  let segs := ((splitOnChar '/' core).map String.mk).filter (fun s => s != "")
  let anchored := cs.head? == some '/' || core.any (fun c => c == '/')
  let pats := if anchored then segs else starSeg :: segs
  (List.range (path.length + 1)).any (fun k =>
    (!dirOnly || decide (k < path.length)) && segsExact pats (path.take k))

/-- `PathSpec.match_file`: the last pattern matching the path decides; `!`
negates; no pattern matching means not ignored. -/
def match_file (patterns : List String) (path : List String) : Bool :=
  (patterns.foldl
    (fun acc pat =>
      if startsWithChar '!' pat then
        if pattern_matches (String.mk (pat.toList.drop 1)) path then some false else acc
      else if pattern_matches pat path then some true else acc)
    none).getD false

/-! ### Data model: files, filesystem, options -/

/-- A regular file under the source root: its root-relative path segments and
its raw bytes. -/
structure SrcFile where
  parts : List String
  bytes : List Nat
deriving DecidableEq

/-- A `.gitignore` file found by `root.rglob(".gitignore")`: the segments of
its parent directory relative to the root (`[]` for the root itself, where
`gitignore.parent.relative_to(root) == Path(".")`), and its lines. -/
structure GitignoreFile where
  rel_dir : List String
  lines : List String
deriving DecidableEq

/-- The directory tree handed to the script: whether the root directory
exists, the `.gitignore` files in it, and the regular files in it (in walk
order).  Directories yield no archive entries (`path.is_file()` filters them),
so only regular files are recorded. -/
structure FsTree where
  rootExists : Bool
  gitignores : List GitignoreFile
  files : List SrcFile
deriving DecidableEq

/-- The exception the specification predicts for a missing source root.  The
archival run's codomain is `Except PyError _` so that "fails" versus
"succeeds" is expressible; as proved below, no modelled execution path ever
raises it (CPython's glob machinery swallows a missing root). -/
inductive PyError
  | fileNotFoundError
deriving DecidableEq

/-- `ZipOptions` (compile.py lines 47-79), restricted to the fields the
archival engine reads.  The presentation-only string fields
(`kristal_folder`, `html_folder_output`, `base_href`, `game_name`, `memory`,
`favicon`, `keywords`, `description`, `author`) do not influence
classification or archive contents and are omitted. -/
structure ZipOptions where
  wav_to_ogg : Bool
  ogg_compression_level : Option Int
  remove_borders : Bool
  remove_builtin_libs : Bool
  also_compress_converted_ogg : Bool
deriving DecidableEq

/-! ### `load_gitignore_patterns` (compile.py lines 28-44) -/

/-- `root.rglob(".gitignore")`.  Models CPython `pathlib` globbing: the
selector first checks `is_dir(parent_path)` and returns an empty iterator for
a missing (or non-directory) root, raising no exception (behaviour of CPython
3.9-3.13, confirmed on 3.11: `list(Path("/nope").rglob(".gitignore")) == []`). -/
def rglob_gitignore (fs : FsTree) : List GitignoreFile :=
  if fs.rootExists then fs.gitignores else []

/-- `folder.rglob("*")` restricted to regular files: same CPython globbing
behaviour, so a missing root yields no files and no exception. -/
def rglob_all_files (fs : FsTree) : List SrcFile :=
  if fs.rootExists then fs.files else []

/-- Line 41: `str(rel_dir / line) if rel_dir != Path(".") else line`. -/
def scoped_pattern (rel_dir : List String) (line : String) : String :=
  if rel_dir = [] then line
  else
    let p := posixParse line
    posixStr p.1 (if p.1 then p.2 else rel_dir ++ p.2)

/-- Lines 34-42: read a `.gitignore` file, strip each line, drop empties and
comments, scope the rest. -/
def parse_gitignore_file (g : GitignoreFile) : List String :=
  g.lines.filterMap (fun raw =>
    let line := pyStrip raw
    if line == "" || startsWithChar '#' line then none
    else some (scoped_pattern g.rel_dir line))

/-- Concatenate the scoped patterns of all discovered `.gitignore` files, in
discovery order. -/
def all_scoped_patterns : List GitignoreFile → List String
  | [] => []
  | g :: gs => parse_gitignore_file g ++ all_scoped_patterns gs

/-- `load_gitignore_patterns` (compile.py lines 28-44): collect every scoped
pattern from the `.gitignore` files `rglob` discovers and compile them
(compilation itself is the `match_file` model).  No statement in its body can
raise for a missing root (see `rglob_gitignore`). -/
def load_gitignore_patterns (fs : FsTree) : List String :=
  all_scoped_patterns (rglob_gitignore fs)

/-! ### Path classification and archive construction
(compile.py lines 82-127) -/

/-- `is_border_file` (compile.py lines 126-127): some window of three
consecutive segments equals `assets`, `sprites`, `borders`. -/
def is_border_file (iterable : List String) : Bool :=
  ((iterable.zip (iterable.drop 1)).zip (iterable.drop 2)).any
    (fun t => t.1.1 == "assets" && t.1.2 == "sprites" && t.2 == "borders")

/-- The version-control metadata directory excluded on line 99. -/
def gitDirName : String := ".git"

/-- The built-in-libraries top-level directory tested on line 103. -/
def libDirName : String := "lib"

/-- The lossy-audio extension. -/
def oggExt : String := ".ogg"

/-- The uncompressed-audio extension. -/
def wavExt : String := ".wav"

/-- The four outcomes of the per-file decision. -/
inductive FileClass
  | skip
  | passThrough
  | recompress
  | transcode
deriving DecidableEq

/-- The per-file decision of the loop body of
`zip_folder_respecting_gitignore` (compile.py lines 95-122), in the source's
branch order: gitignore/`.git` exclusion, then the `lib` skip, then the
`.ogg` recompress branch, then the border skip, then the `.wav` transcode
branch, else pass through.  Note the source never consults
`options.wav_to_ogg`, and tests the `.ogg` branch BEFORE the border skip. -/
def classify (o : ZipOptions) (ignores : List String → Bool) (parts : List String) :
    FileClass :=
  if ignores parts || parts.contains gitDirName then FileClass.skip
  else if o.remove_builtin_libs && (parts.head? == some libDirName) then FileClass.skip
  else if o.ogg_compression_level.isSome && (pySuffixParts parts == oggExt) then
    FileClass.recompress
  else if o.remove_borders && is_border_file parts then FileClass.skip
  else if pySuffixParts parts == wavExt then FileClass.transcode
  else FileClass.passThrough

/-- One iteration of the loop of `zip_folder_respecting_gitignore` (lines
95-122): the archive entries (name, bytes) the file contributes.  The
collaborators `cog` (`compress_ogg_file`) and `wto` (`wav_to_ogg`) are
injected as uninterpreted byte-transformers; both receive the compression
level as an `Option Int` mirroring `wav_to_ogg`'s `Optional[int]` signature
(the recompress branch guard guarantees the level it passes is present). -/
def process_file (o : ZipOptions) (cog wto : List Nat → Option Int → List Nat)
    (ignores : List String → Bool) (f : SrcFile) : List (List String × List Nat) :=
  if ignores f.parts || f.parts.contains gitDirName then []
  else if o.remove_builtin_libs && (f.parts.head? == some libDirName) then []
  else if o.ogg_compression_level.isSome && (pySuffixParts f.parts == oggExt) then
    [(f.parts, cog f.bytes o.ogg_compression_level)]
  else if o.remove_borders && is_border_file f.parts then []
  else if pySuffixParts f.parts == wavExt then
    [(pyWithSuffixParts f.parts oggExt,
      wto f.bytes (if o.also_compress_converted_ogg then o.ogg_compression_level else none))]
  else [(f.parts, f.bytes)]

/-- The whole loop over `folder.rglob("*")` (lines 92-122): the archive
contents, as the ordered list of (entry name, stored bytes) pairs. -/
def zip_entries (o : ZipOptions) (cog wto : List Nat → Option Int → List Nat)
    (ignores : List String → Bool) : List SrcFile → List (List String × List Nat)
  | [] => []
  | f :: fs => process_file o cog wto ignores f ++ zip_entries o cog wto ignores fs

/-- `zip_folder_respecting_gitignore` (compile.py lines 82-122): load the
ignore rules, then walk the files producing archive entries.  The codomain is
`Except PyError _` so that raising versus completing is expressible; since
neither `load_gitignore_patterns` nor the walk raises on a missing root (the
globs just come back empty), every modelled run completes with `ok`. -/
def zip_folder_respecting_gitignore (o : ZipOptions)
    (cog wto : List Nat → Option Int → List Nat) (fs : FsTree) :
    Except PyError (List (List String × List Nat)) :=
  let pats := load_gitignore_patterns fs
  Except.ok (zip_entries o cog wto (fun parts => match_file pats parts) (rglob_all_files fs))

/-! ### Concrete instances used by the closed theorems -/

/-- An ignore matcher that matches nothing (an empty rule set). -/
def ign0 : List String → Bool := fun _ => false

/-- A concrete stand-in for `compress_ogg_file`: prepends a `0` marker. -/
def cog0 : List Nat → Option Int → List Nat := fun b _ => 0 :: b

/-- A concrete stand-in for `wav_to_ogg`: prepends a `1` marker. -/
def wto0 : List Nat → Option Int → List Nat := fun b _ => 1 :: b

/-- The options built by `parse_args` when `--compress` is absent: everything
off, no compression level. -/
def oNoCompress : ZipOptions :=
  { wav_to_ogg := false
    ogg_compression_level := none
    remove_borders := false
    remove_builtin_libs := false
    also_compress_converted_ogg := false }

/-- Options with every optimization on and compression level 3. -/
def oCompress : ZipOptions :=
  { wav_to_ogg := true
    ogg_compression_level := some 3
    remove_borders := true
    remove_builtin_libs := true
    also_compress_converted_ogg := true }

/-- A tree whose subdirectory `sub` holds a `.gitignore` with the single line
`/foo`, plus a root-level file `foo` and a file `sub/bar`. -/
def fs4 : FsTree :=
  { rootExists := true
    gitignores := [{ rel_dir := ["sub"], lines := ["/foo"] }]
    files := [{ parts := ["foo"], bytes := [9] }, { parts := ["sub", "bar"], bytes := [8] }] }

/-- A filesystem whose source root does not exist. -/
def fsMissing : FsTree :=
  { rootExists := false, gitignores := [], files := [] }

/-! ### Helper lemmas -/

/-- The loop body equals dispatch on `classify`: the two definitions share
the same branch conditions in the same order. -/
theorem process_file_eq_dispatch (o : ZipOptions)
    (cog wto : List Nat → Option Int → List Nat)
    (ign : List String → Bool) (f : SrcFile) :
    process_file o cog wto ign f =
      match classify o ign f.parts with
      | FileClass.skip => []
      | FileClass.recompress => [(f.parts, cog f.bytes o.ogg_compression_level)]
      | FileClass.transcode =>
          [(pyWithSuffixParts f.parts oggExt,
            wto f.bytes (if o.also_compress_converted_ogg then o.ogg_compression_level else none))]
      | FileClass.passThrough => [(f.parts, f.bytes)] := by
  unfold process_file classify
  cases h1 : (ign f.parts || f.parts.contains gitDirName) <;>
  cases h2 : (o.remove_builtin_libs && (f.parts.head? == some libDirName)) <;>
  cases h3 : (o.ogg_compression_level.isSome && (pySuffixParts f.parts == oggExt)) <;>
  cases h4 : (o.remove_borders && is_border_file f.parts) <;>
  cases h5 : (pySuffixParts f.parts == wavExt) <;>
  simp

/-- A file only classifies `recompress` when a compression level is present
(the branch guard on line 106). -/
theorem classify_recompress_isSome (o : ZipOptions) (ign : List String → Bool)
    (parts : List String) (h : classify o ign parts = FileClass.recompress) :
    o.ogg_compression_level.isSome = true := by
  unfold classify at h
  cases h1 : (ign parts || parts.contains gitDirName) <;> rw [h1] at h <;>
  cases h2 : (o.remove_builtin_libs && (parts.head? == some libDirName)) <;> rw [h2] at h <;>
  cases h3 : (o.ogg_compression_level.isSome && (pySuffixParts parts == oggExt)) <;> rw [h3] at h <;>
  cases h4 : (o.remove_borders && is_border_file parts) <;> rw [h4] at h <;>
  cases h5 : (pySuffixParts parts == wavExt) <;> rw [h5] at h <;>
  simp_all

/-- Each file contributes no entry when skipped and exactly one otherwise. -/
theorem process_file_length (o : ZipOptions)
    (cog wto : List Nat → Option Int → List Nat)
    (ign : List String → Bool) (f : SrcFile) :
    (process_file o cog wto ign f).length =
      if classify o ign f.parts = FileClass.skip then 0 else 1 := by
  rw [process_file_eq_dispatch]
  cases h : classify o ign f.parts <;> simp [h]

/-! ### Claim theorems -/

/-- C1: the claim fails on the code.  `zip_folder_respecting_gitignore`
never reads `options.wav_to_ogg`: even with the all-off option set built by
`parse_args` without `--compress` (`wav_to_ogg = false`), a `.wav` file is
classified `transcode`, its bytes are routed through the `wav_to_ogg`
collaborator, and it is stored under the renamed entry `a.ogg` — not passed
through byte-identically under `a.wav`. -/
theorem c1_wav_transcoded_despite_flag :
    oNoCompress.wav_to_ogg = false ∧
    classify oNoCompress ign0 ["a.wav"] = FileClass.transcode ∧
    zip_entries oNoCompress cog0 wto0 ign0 [⟨["a.wav"], [1, 2]⟩] =
      [(["a.ogg"], [1, 1, 2])] :=
  ⟨rfl, rfl, rfl⟩

/-- C2: the claim fails on the code.  The `.ogg` recompress branch (line
106) is tested BEFORE the border skip (line 112), so with
`remove_borders = true` and a compression level set, the border file
`assets/sprites/borders/x.ogg` is classified `recompress` — not `skip` —
and produces an archive entry. -/
theorem c2_border_ogg_recompressed :
    oCompress.remove_borders = true ∧
    is_border_file ["assets", "sprites", "borders", "x.ogg"] = true ∧
    classify oCompress ign0 ["assets", "sprites", "borders", "x.ogg"] = FileClass.recompress ∧
    zip_entries oCompress cog0 wto0 ign0 [⟨["assets", "sprites", "borders", "x.ogg"], [5]⟩] =
      [(["assets", "sprites", "borders", "x.ogg"], [0, 5])] :=
  ⟨rfl, rfl, rfl, rfl⟩

/-- C3 counterexample: with a missing source root the run does NOT fail — the
globs come back empty, so the ignore loader returns no patterns and the
builder completes, producing an empty archive. -/
theorem c3_missing_root_no_error :
    fsMissing.rootExists = false ∧
    zip_folder_respecting_gitignore oNoCompress cog0 wto0 fsMissing ≠
      Except.error PyError.fileNotFoundError ∧
    zip_folder_respecting_gitignore oNoCompress cog0 wto0 fsMissing = Except.ok [] :=
  ⟨rfl, fun h => Except.noConfusion h, rfl⟩

/-- C3 amended: when the source root does not exist, the run succeeds rather
than raising: the loader yields an empty pattern list and the archive builder
returns an empty container. -/
theorem c3_missing_root_succeeds (o : ZipOptions)
    (cog wto : List Nat → Option Int → List Nat) (fs : FsTree)
    (h : fs.rootExists = false) :
    load_gitignore_patterns fs = [] ∧
    zip_folder_respecting_gitignore o cog wto fs = Except.ok [] := by
  constructor
  · simp [load_gitignore_patterns, rglob_gitignore, h, all_scoped_patterns]
  · simp [zip_folder_respecting_gitignore, rglob_all_files, h, zip_entries]

/-- C3 witness: the amended theorem at the concrete missing-root tree. -/
theorem c3_missing_root_succeeds_witness :
    load_gitignore_patterns fsMissing = [] ∧
    zip_folder_respecting_gitignore oCompress cog0 wto0 fsMissing = Except.ok [] :=
  c3_missing_root_succeeds oCompress cog0 wto0 fsMissing rfl

/-- C4: the claim fails on the code.  A `.gitignore` inside subdirectory
`sub` declaring the root-anchored pattern `/foo` is scoped by
`str(rel_dir / line)`, but `PurePosixPath` joining discards `rel_dir` when
the right operand is absolute, so the scoped pattern is `/foo` itself — and
the compiled matcher then ignores the ROOT-level file `foo`, a path outside
`sub`, while `sub/bar` is kept. -/
theorem c4_subdir_pattern_escapes :
    scoped_pattern ["sub"] "/foo" = "/foo" ∧
    load_gitignore_patterns fs4 = ["/foo"] ∧
    match_file ["/foo"] ["foo"] = true ∧
    zip_folder_respecting_gitignore oNoCompress cog0 wto0 fs4 =
      Except.ok [(["sub", "bar"], [8])] :=
  ⟨rfl, rfl, rfl, rfl⟩

/-- C5: `is_border_file` holds exactly when three CONSECUTIVE segments equal
`assets`, `sprites`, `borders` — so `bordersville`, `notborders`, or the
three names appearing non-consecutively do not satisfy it. -/
theorem c5_border_triple_iff (l : List String) :
    is_border_file l = true ↔
      ∃ i, l[i]? = some "assets" ∧ l[i + 1]? = some "sprites" ∧ l[i + 2]? = some "borders" := by
  induction l with
  | nil =>
    constructor
    · intro h
      exact Bool.noConfusion h
    · rintro ⟨i, h1, h2, h3⟩
      simp at h1
  | cons a t ih =>
    cases t with
    | nil =>
      constructor
      · intro h
        exact Bool.noConfusion h
      · rintro ⟨i, h1, h2, h3⟩
        cases i with
        | zero => simp at h2
        | succ j => simp at h1
    | cons b t2 =>
      cases t2 with
      | nil =>
        constructor
        · intro h
          exact Bool.noConfusion h
        · rintro ⟨i, h1, h2, h3⟩
          cases i with
          | zero => simp at h3
          | succ j =>
            cases j with
            | zero => simp at h3
            | succ k => simp at h1
      | cons c r =>
        have hcons : is_border_file (a :: b :: c :: r) =
            ((a == "assets" && b == "sprites" && c == "borders") ||
              is_border_file (b :: c :: r)) := rfl
        rw [hcons, Bool.or_eq_true, ih]
        constructor
        · rintro (h | ⟨i, h1, h2, h3⟩)
          · simp only [Bool.and_eq_true, beq_iff_eq] at h
            exact ⟨0, by simp [h.1.1], by simp [h.1.2], by simp [h.2]⟩
          · exact ⟨i + 1, by simpa using h1, by simpa using h2, by simpa using h3⟩
        · rintro ⟨i, h1, h2, h3⟩
          cases i with
          | zero =>
            left
            simp only [List.getElem?_cons_zero, Option.some.injEq] at h1
            simp only [List.getElem?_cons_succ, List.getElem?_cons_zero,
              Option.some.injEq] at h2 h3
            subst h1; subst h2; subst h3
            rfl
          | succ j =>
            right
            exact ⟨j, by simpa using h1, by simpa using h2, by simpa using h3⟩

/-- C6: with `remove_builtin_libs` set, any file whose first segment is
`lib` is classified `skip` — the `lib` test (line 103) precedes both audio
branches, so the extension is irrelevant — and contributes no entry. -/
theorem c6_lib_skip_priority (o : ZipOptions)
    (cog wto : List Nat → Option Int → List Nat) (ign : List String → Bool)
    (f : SrcFile) (h1 : o.remove_builtin_libs = true)
    (h2 : f.parts.head? = some libDirName) :
    classify o ign f.parts = FileClass.skip ∧ process_file o cog wto ign f = [] := by
  have hc : classify o ign f.parts = FileClass.skip := by
    unfold classify
    cases hg : (ign f.parts || f.parts.contains gitDirName) <;> simp [h1, h2]
  exact ⟨hc, by rw [process_file_eq_dispatch, hc]⟩

/-- C6 witness: a `.wav` under `lib` with everything switched on. -/
theorem c6_lib_skip_priority_witness :
    classify oCompress ign0 ["lib", "x.wav"] = FileClass.skip ∧
    process_file oCompress cog0 wto0 ign0 ⟨["lib", "x.wav"], [3]⟩ = [] :=
  c6_lib_skip_priority oCompress cog0 wto0 ign0 ⟨["lib", "x.wav"], [3]⟩ rfl rfl

/-- C7: a `transcode`-classified file is stored under its relative path with
the extension changed to `.ogg`, its bytes produced by the `wav_to_ogg`
collaborator called with `ogg_compression_level` when
`also_compress_converted_ogg` is set and with the level omitted otherwise; a
`recompress`-classified file is stored under its unmodified relative path
with bytes produced by `compress_ogg_file` called with the (present)
`ogg_compression_level`. -/
theorem c7_transform_payloads (o : ZipOptions)
    (cog wto : List Nat → Option Int → List Nat) (ign : List String → Bool)
    (f : SrcFile) :
    (classify o ign f.parts = FileClass.transcode →
      process_file o cog wto ign f =
        [(pyWithSuffixParts f.parts oggExt,
          wto f.bytes
            (if o.also_compress_converted_ogg then o.ogg_compression_level else none))]) ∧
    (classify o ign f.parts = FileClass.recompress →
      o.ogg_compression_level.isSome = true ∧
      process_file o cog wto ign f = [(f.parts, cog f.bytes o.ogg_compression_level)]) := by
  constructor
  · intro h
    rw [process_file_eq_dispatch, h]
  · intro h
    exact ⟨classify_recompress_isSome o ign f.parts h, by rw [process_file_eq_dispatch, h]⟩

/-- C7 witness: the theorem applied to a concrete `.wav` and a concrete
`.ogg` under the all-on options. -/
theorem c7_transform_payloads_witness :
    process_file oCompress cog0 wto0 ign0 ⟨["a.wav"], [5]⟩ = [(["a.ogg"], [1, 5])] ∧
    process_file oCompress cog0 wto0 ign0 ⟨["b.ogg"], [6]⟩ = [(["b.ogg"], [0, 6])] := by
  constructor
  · exact ((c7_transform_payloads oCompress cog0 wto0 ign0 ⟨["a.wav"], [5]⟩).1 rfl).trans rfl
  · exact (((c7_transform_payloads oCompress cog0 wto0 ign0 ⟨["b.ogg"], [6]⟩).2 rfl).2).trans rfl

/-- C8: a `passThrough`-classified file's entry carries exactly the source
bytes, under the unmodified relative path, and that entry is in the archive
contents. -/
theorem c8_passthrough_roundtrip (o : ZipOptions)
    (cog wto : List Nat → Option Int → List Nat) (ign : List String → Bool)
    (files : List SrcFile) (f : SrcFile) (hf : f ∈ files)
    (hc : classify o ign f.parts = FileClass.passThrough) :
    (f.parts, f.bytes) ∈ zip_entries o cog wto ign files := by
  induction files with
  | nil => exact absurd hf (List.not_mem_nil f)
  | cons g gs ih =>
    rcases List.mem_cons.mp hf with h | h
    · subst h
      refine List.mem_append_left _ ?_
      rw [process_file_eq_dispatch, hc]
      exact List.mem_singleton_self _
    · exact List.mem_append_right _ (ih h)

/-- C8 witness: a plain text file under the all-on options. -/
theorem c8_passthrough_roundtrip_witness :
    ((["readme.txt"], [9]) : List String × List Nat) ∈
      zip_entries oCompress cog0 wto0 ign0 [⟨["readme.txt"], [9]⟩] :=
  c8_passthrough_roundtrip oCompress cog0 wto0 ign0 [⟨["readme.txt"], [9]⟩]
    ⟨["readme.txt"], [9]⟩ (List.mem_singleton_self _) rfl

/-- C9: classification is a total function into the four classes, hence
deterministic (same path and options give the same decision), and each
eligible (non-skipped) file contributes exactly one archive entry while a
skipped file contributes none. -/
theorem c9_total_deterministic (o : ZipOptions)
    (cog wto : List Nat → Option Int → List Nat) (ign : List String → Bool) :
    (∀ parts : List String, classify o ign parts = classify o ign parts) ∧
    (∀ f : SrcFile, (process_file o cog wto ign f).length =
      if classify o ign f.parts = FileClass.skip then 0 else 1) ∧
    (∀ files : List SrcFile, (zip_entries o cog wto ign files).length =
      files.countP (fun f => !(classify o ign f.parts == FileClass.skip))) := by
  refine ⟨fun parts => rfl, process_file_length o cog wto ign, ?_⟩
  intro files
  induction files with
  | nil => rfl
  | cons f fs ih =>
    simp only [zip_entries, List.length_append, List.countP_cons, ih,
      process_file_length o cog wto ign f]
    cases h : classify o ign f.parts <;> simp [h] <;> omega

/-- C10: entry names are not unique — `foo.wav` is transcoded and renamed to
`foo.ogg` while the distinct source file `foo.ogg` is recompressed under its
own name, so the archive receives two entries named `foo.ogg`, one per
source file. -/
theorem c10_duplicate_entry_names :
    zip_entries oCompress cog0 wto0 ign0
        [⟨["foo.wav"], [1]⟩, ⟨["foo.ogg"], [2]⟩] =
      [(["foo.ogg"], [1, 1]), (["foo.ogg"], [0, 2])] ∧
    (["foo.wav"] : List String) ≠ ["foo.ogg"] :=
  ⟨rfl, by decide⟩

end Kristal
